import Mathlib

/-!
Verification of the mockdeu interview core (src/logic/analysis.py,
src/logic/interview.py, src/logic/session.py) against its specification.

The Python code is shallowly embedded: strings are Lean strings over their
character lists, Python float arithmetic is idealized as exact rational
arithmetic, Python `round` (banker rounding, half to even) is `pythonRound`,
and Python exceptions (KeyError on a missing dict key, AttributeError on a
missing attribute) are surfaced as an `Option String` error component
carrying the state at the raise point.  Character-level operations
(`str.lower`, `str.upper`, `str.isdigit`) are modeled on ASCII, which covers
every string constant occurring in the code.
-/

namespace Mockdeu

/-! ## Python string primitives -/

/-- ASCII model of `str.lower`. -/
def pyLower (s : String) : String := ⟨s.data.map Char.toLower⟩

/-- ASCII model of `str.upper`. -/
def pyUpper (s : String) : String := ⟨s.data.map Char.toUpper⟩

/-- Whitespace characters recognized by `str.split` / `str.strip`. -/
def isWS (c : Char) : Bool :=
  c = ' ' || c = '\t' || c = '\n' || c = '\r' || c = '\x0b' || c = '\x0c'

/-- Characters matched by the regex class `[a-z0-9]`. -/
def isTokChar (c : Char) : Bool :=
  ('a' ≤ c && c ≤ 'z') || ('0' ≤ c && c ≤ '9')

/-- Auxiliary for the Python substring test: does `n` occur inside the list? -/
def infixAux (n : List Char) : List Char → Bool
  | [] => n.isEmpty
  | c :: rest => n.isPrefixOf (c :: rest) || infixAux n rest

/-- Python `needle in hay` on strings (substring containment). -/
def pyIn (needle hay : String) : Bool := infixAux needle.data hay.data

/-- Python `s.startswith(p)`. -/
def pyStartsWith (s p : String) : Bool := p.data.isPrefixOf s.data

/-- Python `s.strip()`. -/
def pyStrip (s : String) : String :=
  ⟨((s.data.dropWhile isWS).reverse.dropWhile isWS).reverse⟩

/-- Python `s[n:]`. -/
def strDrop (s : String) (n : Nat) : String := ⟨s.data.drop n⟩

/-- Maximal runs of characters satisfying `p`; `cur` is the reversed current
run.  `splitRunsAux p [] l` lists the maximal `p`-runs of `l` in order. -/
def splitRunsAux (p : Char → Bool) : List Char → List Char → List (List Char)
  | cur, [] => if cur = [] then [] else [cur.reverse]
  | cur, c :: cs =>
    if p c then splitRunsAux p (c :: cur) cs
    else if cur = [] then splitRunsAux p [] cs
    else cur.reverse :: splitRunsAux p [] cs

/-- Maximal runs of characters satisfying `p` (the regex `findall` pattern
`X+` for a character class `X`, and also `str.split` with `p = not
whitespace`). -/
def splitRuns (p : Char → Bool) (l : List Char) : List (List Char) :=
  splitRunsAux p [] l

/-- Python `s.split()`: whitespace-separated words, empties dropped. -/
def pySplitWS (s : String) : List String :=
  (splitRuns (fun c => !isWS c) s.data).map fun l => (⟨l⟩ : String)

/-- Python `s.splitlines()`, modeled for newline-separated text (every string
the session code feeds to it uses plain `\n` separators; the possible extra
trailing empty line is skipped by the caller's blank-line test). -/
def pySplitLines (s : String) : List String :=
  (s.data.splitOn '\n').map fun l => (⟨l⟩ : String)

/-- Digit-string value, `none` unless the list is nonempty and all digits. -/
def digitsVal (cs : List Char) : Option Nat :=
  if cs = [] then none
  else if cs.all Char.isDigit then
    some (cs.foldl (fun a c => a * 10 + (c.toNat - 48)) 0)
  else none

/-- Python `int(s)` on a stripped string: optional sign then digits, `none`
when `int` would raise `ValueError` (underscore digit grouping, accepted by
Python, is not modeled; no input settled here uses it). -/
def pyInt (s : String) : Option Int :=
  match (pyStrip s).data with
  | '+' :: rest => (digitsVal rest).map Int.ofNat
  | '-' :: rest => (digitsVal rest).map fun n => -(n : Int)
  | cs => (digitsVal cs).map Int.ofNat

/-- Python non-overlapping `hay.count(needle)`: after a match, scanning
resumes past it.  The fuel argument starts at the haystack length, which
bounds the number of scanning steps. -/
def pyCountFuel (n : List Char) : Nat → List Char → Nat
  | 0, _ => 0
  | _ + 1, [] => 0
  | fuel + 1, c :: rest =>
    if n.isPrefixOf (c :: rest) then 1 + pyCountFuel n fuel (rest.drop (n.length - 1))
    else pyCountFuel n fuel rest

/-- Python `hay.count(needle)`. -/
def pyCount (needle hay : String) : Nat :=
  if needle.data = [] then hay.data.length + 1
  else pyCountFuel needle.data hay.data.length hay.data

/-- Python banker rounding `round(q)`: nearest integer, ties to even. -/
def pythonRound (q : ℚ) : ℤ :=
  let f := ⌊q⌋
  let r := q - f
  if r < 1 / 2 then f
  else if 1 / 2 < r then f + 1
  else if 2 ∣ f then f else f + 1

/-! ## AnswerAnalysis (src/logic/analysis.py, class AnswerAnalysis)

Only the fields the settled claims and the session controller observe are
embedded: the token list (and via it the token set), its length, the
vagueness flag and the biology hint.  All are computed exactly as in
`AnswerAnalysis.__init__`. -/

/-- `AnswerAnalysis.UNCERTAINTY`. -/
def UNCERTAINTY : List String :=
  ["maybe", "not sure", "i think", "probably", "perhaps", "i guess", "don\x27t know"]

structure AnswerFeatures where
  tokens : List String
  length : Nat
  vague : Bool
  bio_hint : Bool
deriving Repr, DecidableEq

/-- `AnswerAnalysis.__init__`: `tokens = re.findall(r"[a-z0-9]+", text.lower())`,
`token_set = set(tokens)` (membership on the token list), `vague = length < 4
or any(w in token_set for w in UNCERTAINTY)`, `bio_hint` likewise by token-set
membership. -/
def analyzeAnswer (text : String) : AnswerFeatures :=
  let tokens := (splitRuns isTokChar (pyLower text).data).map fun l => (⟨l⟩ : String)
  { tokens := tokens
    length := tokens.length
    vague := decide (tokens.length < 4) || UNCERTAINTY.any fun w => tokens.contains w
    bio_hint := ["biology", "biological", "life", "zoology"].any fun w => tokens.contains w }

/-! ## VisaScorer (src/logic/analysis.py, class VisaScorer) -/

structure ScoreState where
  points : ℚ
  max_possible : ℚ
  evidence_ties : List String
  evidence_funds : List String
  evidence_academics : List String
  evidence_intent : List String
  categories_scored : List String
  response_quality : List ℚ
  evasiveness : Nat
  contradictions : List (String × String × String)
  claims : List (String × String)
  fraud_flags : List String
deriving Repr, DecidableEq

/-- `VisaScorer.reset`.  The `evidence` dict is created with exactly the four
keys ties/funds/academics/intent (and no code path ever adds a key), so it is
embedded as four list fields. -/
def initScore : ScoreState :=
  { points := 0, max_possible := 0
    evidence_ties := [], evidence_funds := [], evidence_academics := []
    evidence_intent := []
    categories_scored := [], response_quality := [], evasiveness := 0
    contradictions := [], claims := [], fraud_flags := [] }

/-- `self.weights.get(cat, 1.0)` with
`weights = {ties: 1.5, funds: 1.2, academics: 1.0, intent: 1.3, purpose: 1.4}`. -/
def weight (cat : String) : ℚ :=
  if cat = "ties" then 3 / 2
  else if cat = "funds" then 6 / 5
  else if cat = "academics" then 1
  else if cat = "intent" then 13 / 10
  else if cat = "purpose" then 7 / 5
  else 1

/-- The keyword table `kw` in `VisaScorer.update`; `kw.get(cat, [])`. -/
def kwList (cat : String) : List String :=
  if cat = "ties" then
    ["family", "parents", "spouse", "children", "property", "house", "land",
     "job", "return", "home"]
  else if cat = "funds" then
    ["sponsor", "father", "mother", "bank", "loan", "savings", "salary",
     "tuition", "fees", "rs", "usd"]
  else if cat = "academics" then
    ["gpa", "grade", "research", "project", "course", "professor",
     "university", "computer science", "biology"]
  else if cat = "intent" then
    ["return", "temporary", "after graduation", "career", "plan", "goal", "role"]
  else if cat = "purpose" then
    ["tourism", "visit", "conference", "meeting", "business", "medical",
     "sightseeing", "grand canyon", "disney"]
  else []

/-- The `matched` computation of `VisaScorer.update` on the lowered text `t`:
a category keyword occurs as a substring, or the category is funds and the
text contains a digit. -/
def matchedLower (cat t : String) : Bool :=
  (kwList cat).any (fun k => pyIn k t) || (cat = "funds" && t.data.any Char.isDigit)

/-- A call `update(cat, pts, text)` that takes the matched branch:
the text is nonempty (otherwise update returns at once) and matches. -/
def isMatchedCall (c : String × ℤ × String) : Bool :=
  c.2.2 ≠ "" && matchedLower c.1 (pyLower c.2.2)

/-- `self.evidence[cat].append(text)`: `none` models the `KeyError` Python
raises when `cat` is not one of the four keys of the evidence dict. -/
def evidenceAppend (s : ScoreState) (cat text : String) : Option ScoreState :=
  if cat = "ties" then some { s with evidence_ties := s.evidence_ties ++ [text] }
  else if cat = "funds" then some { s with evidence_funds := s.evidence_funds ++ [text] }
  else if cat = "academics" then
    some { s with evidence_academics := s.evidence_academics ++ [text] }
  else if cat = "intent" then some { s with evidence_intent := s.evidence_intent ++ [text] }
  else none

/-- Lookup in the `claims` dict (association list model). -/
def assocLookup (l : List (String × String)) (k : String) : Option String :=
  match l with
  | [] => none
  | (a, b) :: rest => if a = k then some b else assocLookup rest k

/-- Assignment `claims[k] = v` in the dict model. -/
def assocSet (l : List (String × String)) (k v : String) : List (String × String) :=
  if l.any (fun p => p.1 = k) then l.map fun p => if p.1 = k then (k, v) else p
  else l ++ [(k, v)]

/-- `set_claim` inside `VisaScorer._track_claims`: a contradiction is logged
when a previously stored truthy value differs from the new one. -/
def setClaim (s : ScoreState) (key val : String) : ScoreState :=
  let s1 :=
    match assocLookup s.claims key with
    | some prev =>
      if prev ≠ "" ∧ prev ≠ val then
        { s with contradictions := s.contradictions ++ [(key, prev, val)] }
      else s
    | none => s
  { s1 with claims := assocSet s1.claims key val }

/-- `VisaScorer._track_claims` on the lowered text `t`. -/
def trackClaims (s : ScoreState) (t : String) : ScoreState :=
  let s1 :=
    if ["father", "mother", "parents", "self", "scholarship", "loan"].any
        (fun w => pyIn w t) then
      setClaim s "sponsor" "mentioned"
    else s
  let s2 :=
    if ["wisconsin", "green bay", "uwgb", "university", "college"].any
        (fun w => pyIn w t) then
      setClaim s1 "university" "mentioned"
    else s1
  if ["computer science", "cs", "biology", "engineering", "business", "it"].any
      (fun w => pyIn w t) then
    setClaim s2 "major" "mentioned"
  else s2

/-- The tail of `VisaScorer.update` (evasiveness, claim tracking, fraud
flags), executed on both the matched and the unmatched branch. -/
def updateTail (s : ScoreState) (t : String) : ScoreState :=
  let s1 :=
    if ["don\x27t know", "not sure", "maybe", "can\x27t say"].any (fun p => pyIn p t) then
      { s with evasiveness := s.evasiveness + 1 }
    else s
  let s2 := trackClaims s1 t
  if pyIn "fake" t || pyIn "arranged" t then
    { s2 with fraud_flags := s2.fraud_flags ++ ["Possible misrepresentation language"] }
  else s2

/-- Python set `add`. -/
def setInsert (l : List String) (c : String) : List String :=
  if l.contains c then l else l ++ [c]

/-- `VisaScorer.update(cat, base_points, text)`.  The second component is the
uncaught exception (`KeyError`, when a matched update names a category absent
from the evidence dict); the state component holds the mutations applied
before the raise point, exactly as the Python object would. -/
def update (s : ScoreState) (cat : String) (base_points : ℤ) (text : String) :
    ScoreState × Option String :=
  if text = "" then (s, none)
  else
    let w := weight cat
    let pts : ℚ := ((max 0 (min 3 base_points) : ℤ) : ℚ) * w
    let s1 := { s with max_possible := s.max_possible + 3 * w }
    let t := pyLower text
    if matchedLower cat t then
      let s2 := { s1 with points := s1.points + pts }
      match evidenceAppend s2 cat text with
      | none => (s2, some ("KeyError: " ++ cat))
      | some s3 =>
        let s4 :=
          { s3 with
            categories_scored := setInsert s3.categories_scored cat
            response_quality :=
              s3.response_quality ++ [min 10 (((pySplitWS t).length : ℚ) / 4)] }
        (updateTail s4 t, none)
    else
      (updateTail { s1 with response_quality := s1.response_quality ++ [4] } t, none)

/-- A sequence of `update` calls on one scorer; a raised exception aborts the
rest of the sequence, as it would abort the enclosing Python execution. -/
def runUpdates : List (String × ℤ × String) → ScoreState → ScoreState × Option String
  | [], s => (s, none)
  | c :: rest, s =>
    let r := update s c.1 c.2.1 c.2.2
    match r.2 with
    | some e => (r.1, some e)
    | none => runUpdates rest r.1

/-- `len(set(self.evidence.keys()) - self.categories_scored)`: the evidence
dict always has exactly the keys ties/funds/academics/intent. -/
def uncoveredCount (s : ScoreState) : Nat :=
  (["ties", "funds", "academics", "intent"].filter
    (fun c => !s.categories_scored.contains c)).length

/-- `VisaScorer.score`. -/
def score (s : ScoreState) : ℤ :=
  if s.max_possible = 0 then 0
  else
    let base := 100 * (s.points / s.max_possible)
    let penalty : ℚ :=
      (s.evasiveness : ℚ) * 3 + (s.contradictions.length : ℚ) * 8 +
        (uncoveredCount s : ℚ) * 8
    let quality : ℚ :=
      s.response_quality.sum / ((max 1 s.response_quality.length : Nat) : ℚ) - 5
    let final := base - penalty + quality * 2
    max 0 (min 100 (pythonRound final))

/-- Score formula following the words of the spec and of claim C2: base minus
penalty plus quality adjustment, where the penalty charges 8 points for each
of the FIVE categories that have a keyword list (ties, funds, academics,
intent, purpose) never covered, the quality adjustment is twice (mean of the
quality list minus 5), and the result is clamped to [0, 100] and then rounded
to the nearest integer. -/
def scoreSpecClaim (s : ScoreState) : ℤ :=
  if s.max_possible = 0 then 0
  else
    let base := 100 * (s.points / s.max_possible)
    let uncovered :=
      (["ties", "funds", "academics", "intent", "purpose"].filter
        (fun c => !s.categories_scored.contains c)).length
    let penalty : ℚ :=
      (s.evasiveness : ℚ) * 3 + (s.contradictions.length : ℚ) * 8 + (uncovered : ℚ) * 8
    let qualityAdj : ℚ :=
      (s.response_quality.sum / (s.response_quality.length : ℚ) - 5) * 2
    let final := base - penalty + qualityAdj
    pythonRound (max 0 (min 100 final))

/-- The claim C2 formula amended to what the code computes: the never-covered
penalty ranges over the four evidence-dict categories only (purpose is not a
key of the evidence dict, so it never contributes). -/
def scoreSpecFour (s : ScoreState) : ℤ :=
  if s.max_possible = 0 then 0
  else
    let base := 100 * (s.points / s.max_possible)
    let uncovered :=
      (["ties", "funds", "academics", "intent"].filter
        (fun c => !s.categories_scored.contains c)).length
    let penalty : ℚ :=
      (s.evasiveness : ℚ) * 3 + (s.contradictions.length : ℚ) * 8 + (uncovered : ℚ) * 8
    let qualityAdj : ℚ :=
      (s.response_quality.sum / (s.response_quality.length : ℚ) - 5) * 2
    let final := base - penalty + qualityAdj
    pythonRound (max 0 (min 100 final))

/-! ## AdministrativeProcessingTracker (src/logic/analysis.py) -/

structure APState where
  financial_triggers : Nat
  academic_triggers : Nat
  consistency_triggers : Nat
  credibility_triggers : Nat
  ap_threshold : Nat
deriving Repr, DecidableEq

def initAP : APState := ⟨0, 0, 0, 0, 2⟩

/-- The analysis dict handed to `analyze_response`; only the three entries the
tracker reads are relevant (`get` defaults: empty flags list, score 0,
stress 0).  `consistency_flags` is the truthiness of the flags list. -/
structure APAnalysisDict where
  consistency_flags : Bool
  specificity_score : ℚ
  stress_level : ℚ
deriving Repr, DecidableEq

/-- `AdministrativeProcessingTracker._financial_uncertainty`. -/
def financialUncertainty (text : String) : Bool :=
  let tl := pyLower text
  let vagueFinancial :=
    ["not sure", "don\x27t know", "maybe", "probably", "i think",
     "my father will arrange", "we have enough", "sufficient funds"].any
      fun p => pyIn p tl
  let noSpecifics :=
    !(["salary", "savings", "bank", "amount", "figure"].any fun w => pyIn w tl)
  vagueFinancial || noSpecifics

/-- `AdministrativeProcessingTracker._academic_issues`. -/
def academicIssues (text : String) (a : APAnalysisDict) : Bool :=
  decide (a.specificity_score < 3 / 10) || decide ((pySplitWS text).length < 8)

/-- `AdministrativeProcessingTracker._credibility_concerns`. -/
def credibilityConcerns (text : String) (a : APAnalysisDict) : Bool :=
  decide (a.stress_level > 7 / 10) ||
    decide (pyCount "um" (pyLower text) + pyCount "uh" (pyLower text) > 3)

/-- Sum of the four trigger counters. -/
def totalTriggers (s : APState) : Nat :=
  s.financial_triggers + s.academic_triggers + s.consistency_triggers +
    s.credibility_triggers

/-- `AdministrativeProcessingTracker._should_escalate_to_ap`. -/
def shouldEscalateToAp (s : APState) : Bool :=
  decide (s.ap_threshold ≤ totalTriggers s)

/-- The dict returned by `analyze_response`. -/
structure APResult where
  triggers : List String
  total_triggers : Nat
  should_escalate_ap : Bool
  ap_reason : Option String
deriving Repr, DecidableEq

/-- `AdministrativeProcessingTracker.analyze_response`. -/
def analyzeResponse (s : APState) (user_text : String) (a : APAnalysisDict)
    (_turn : Nat) : APResult × APState :=
  let (s1, t1) :=
    if financialUncertainty user_text then
      ({ s with financial_triggers := s.financial_triggers + 1 },
        ["financial verification needed"])
    else (s, [])
  let (s2, t2) :=
    if academicIssues user_text a then
      ({ s1 with academic_triggers := s1.academic_triggers + 1 },
        ["academic background verification"])
    else (s1, [])
  let (s3, t3) :=
    if a.consistency_flags then
      ({ s2 with consistency_triggers := s2.consistency_triggers + 1 },
        ["inconsistent information"])
    else (s2, [])
  let (s4, t4) :=
    if credibilityConcerns user_text a then
      ({ s3 with credibility_triggers := s3.credibility_triggers + 1 },
        ["credibility concerns"])
    else (s3, [])
  let triggers := t1 ++ t2 ++ t3 ++ t4
  ({ triggers := triggers
     total_triggers := totalTriggers s4
     should_escalate_ap := shouldEscalateToAp s4
     ap_reason :=
       if triggers ≠ [] then some (String.intercalate " & " triggers) else none },
    s4)

/-- A sequence of `analyze_response` calls on one tracker. -/
def runAP : List (String × APAnalysisDict × Nat) → APState → APState
  | [], s => s
  | c :: rest, s => runAP rest (analyzeResponse s c.1 c.2.1 c.2.2).2

/-- `AdministrativeProcessingTracker.get_ap_reason`. -/
def getApReason (s : APState) : String :=
  let reasons :=
    (if 2 ≤ s.financial_triggers then ["financial verification"] else []) ++
    (if 2 ≤ s.academic_triggers then ["academic background review"] else []) ++
    (if 2 ≤ s.consistency_triggers then ["information consistency check"] else []) ++
    (if 2 ≤ s.credibility_triggers then ["applicant credibility assessment"] else [])
  if reasons ≠ [] then String.intercalate " & " reasons
  else "standard administrative review"

/-! ## InterviewState (src/logic/interview.py) -/

structure IState where
  turn : Nat
  asked_categories : List String
  category_set : List String
  questions_history : List String
  darwin_check_used : Bool
deriving Repr, DecidableEq

def initIState : IState := ⟨0, [], [], [], false⟩

/-- Space-join, Python `" ".join(words)`. -/
def joinSpace : List String → String
  | [] => ""
  | [t] => t
  | t :: ts => t ++ " " ++ joinSpace ts

/-- `InterviewState._norm`: lowercase, replace every character outside
`[a-z0-9\s]` with a space, split on whitespace and re-join with single
spaces. -/
def norm (s : String) : String :=
  let repl : List Char :=
    (pyLower s).data.map fun c => if isTokChar c || isWS c then c else ' '
  joinSpace ((splitRuns (fun c => !isWS c) repl).map fun l => (⟨l⟩ : String))

/-- Append to the `deque(maxlen=25)` question history: oldest evicted. -/
def pushHistory (h : List String) (q : String) : List String :=
  let h2 := h ++ [q]
  if 25 < h2.length then h2.drop (h2.length - 25) else h2

/-- `InterviewState.record(q, cat_hint)`; a `None` or empty hint adds no
category (the session controller always passes `None`). -/
def record (st : IState) (q : String) (cat_hint : Option String) : IState :=
  let st1 :=
    if q ≠ "" then
      { st with questions_history := pushHistory st.questions_history (norm q) }
    else st
  match cat_hint with
  | some c =>
    if c ≠ "" then
      { st1 with asked_categories := st1.asked_categories ++ [c]
                 category_set := setInsert st1.category_set c }
    else st1
  | none => st1

/-- `InterviewState._jaccard` on two normalized question strings: Jaccard
similarity of their word sets, 0 when either set is empty. -/
def jaccard (a b : String) : ℚ :=
  let sa := (pySplitWS a).toFinset
  let sb := (pySplitWS b).toFinset
  if sa = ∅ ∨ sb = ∅ then 0
  else ((sa ∩ sb).card : ℚ) / ((sa ∪ sb).card : ℚ)

/-- `InterviewState.too_similar`. -/
def tooSimilar (st : IState) (new_q : String) (threshold : ℚ) : Bool :=
  let n := norm new_q
  st.questions_history.any fun prev => decide (threshold ≤ jaccard prev n)

/-! ## parse_ai_with_ap (src/logic/interview.py) -/

/-- The category alias map `m` in `parse_ai_with_ap`, `m.get(c, c)`. -/
def mapCat (c : String) : String :=
  if c = "education" then "academics"
  else if c = "financial" then "funds"
  else if c = "finance" then "funds"
  else if c = "family" then "ties"
  else if c = "purpose" then "intent"
  else c

/-- Split at the first colon, Python `body.split(":", 1)`; `none` models the
unpacking `ValueError` when no colon is present. -/
def splitColon : List Char → Option (List Char × List Char)
  | [] => none
  | c :: cs =>
    if c = ':' then some ([], cs)
    else (splitColon cs).map fun p => (c :: p.1, p.2)

def splitColonStr (s : String) : Option (String × String) :=
  (splitColon s.data).map fun p => ((⟨p.1⟩ : String), (⟨p.2⟩ : String))

/-- Accumulator of the line loop in `parse_ai_with_ap` (the local variables
`q`, `decision`, `cat`, `pts`, `score_line`, `dec_line`). -/
structure LineAcc where
  q : Option String
  decision : Option (String × String)
  cat : String
  pts : ℤ
  score_line : Option String
  dec_line : Option String
deriving Repr, DecidableEq

def initLineAcc : LineAcc :=
  { q := none, decision := none, cat := "intent", pts := 1
    score_line := none, dec_line := none }

/-- One iteration of the line loop.  On a SCORE line whose body has no colon,
the unpacking raises and is swallowed by the bare except, leaving `cat` and
`pts` unchanged; if `int()` raises, `cat` has already been reassigned but
`pts` keeps its old value — both partial effects are modeled. -/
def procLine (acc : LineAcc) (line : String) : LineAcc :=
  let t := pyStrip line
  if t = "" then acc
  else
    let u := pyUpper t
    if pyStartsWith u "QUESTION:" then { acc with q := some (pyStrip (strDrop t 9)) }
    else if pyStartsWith u "SCORE:" then
      let body := pyStrip (strDrop t 6)
      let acc1 := { acc with score_line := some t }
      match splitColonStr body with
      | none => acc1
      | some cp =>
        let c := pyLower (pyStrip cp.1)
        let acc2 := { acc1 with cat := mapCat c }
        match pyInt cp.2 with
        | some n => { acc2 with pts := n }
        | none => acc2
    else if pyStartsWith u "DECISION:" then
      let body := pyStrip (strDrop t 9)
      let acc1 := { acc with dec_line := some t }
      match splitColonStr body with
      | some tr => { acc1 with decision := some (pyStrip tr.1, pyStrip tr.2) }
      | none => { acc1 with decision := some (body, "Based on interview responses") }
    else acc

/-- The tuple returned by `parse_ai_with_ap` (without the scorer, which is
passed by reference and returned separately here). -/
structure ParseOut where
  q : Option String
  decision : Option (String × String)
  done : Bool
  score_line : Option String
  dec_line : Option String
deriving Repr, DecidableEq

/-- `parse_ai_with_ap(ai_text, user_text, scorer)`.  The scorer update runs
before the return even when a terminal DECISION line is present; its
(unreachable on this call path, see `update`) `KeyError` is the second
component of the returned pair of scorer and error. -/
def parseAiWithAp (ai_text user_text : String) (scorer : ScoreState) :
    ParseOut × ScoreState × Option String :=
  if ai_text = "" then
    ({ q := none, decision := none, done := false, score_line := none,
       dec_line := none }, scorer, none)
  else
    let acc := (pySplitLines ai_text).foldl procLine initLineAcc
    let upd :=
      if ["academics", "funds", "ties", "intent", "purpose"].contains acc.cat then
        update scorer acc.cat acc.pts user_text
      else (scorer, none)
    let q :=
      match acc.q with
      | none => none
      | some qq =>
        if qq = "" then some qq
        else if pyIn "ds-160" (pyLower qq) then some qq
        else if ["show me", "provide document"].any (fun x => pyIn x (pyLower qq)) then
          some "Can you explain that in more detail?"
        else some qq
    ({ q := q, decision := acc.decision, done := acc.decision.isSome
       score_line := acc.score_line, dec_line := acc.dec_line }, upd.1, upd.2)

/-! ## InterviewSession (src/logic/session.py)

The session model starts at the turn loop of `InterviewSession.run`: the
DS-160 load, style/embassy prompts and the randomly chosen opening question
that precede it only feed the collaborator prompt and the transcript, and the
`history` list is consumed exclusively by the LLM collaborator, so it is not
part of the observable state here.  Each loop iteration consumes one
`TurnInput`: the transcribed answer (`""` models the falsy no-answer result)
and the collaborator reply (`""` models a falsy/absent reply). -/

structure TurnInput where
  user_text : String
  ai_text : String
deriving Repr, DecidableEq

structure SessState where
  scorer : ScoreState
  tracker : APState
  istate : IState
  transcript : List String
deriving Repr, DecidableEq

def initSess : SessState :=
  { scorer := initScore, tracker := initAP, istate := initIState, transcript := [] }

inductive LoopCtl where
  | cont : LoopCtl
  | brk : String × String → LoopCtl
  | err : String → LoopCtl
deriving Repr, DecidableEq

def clarification : String := "I need you to answer the question clearly."

def noAnswerDecision : String × String :=
  ("DENIED", "Unable to provide clear responses during interview.")

def fallbackQuestion : String :=
  "Let me ask you another question. What confirms you\x27ll return home after studies?"

/-- The body of `for turn in range(self.cfg.max_turns)` in
`InterviewSession.run`.  `major` is `data.get("major", "")` from the DS-160
data.  Note that `parse_ai_with_ap` sets `done` exactly when it sets a
decision, so the `if done:` branch is taken on `out.decision = some d`; the
`AdministrativeProcessingTracker` field is never touched by any branch
(`analyze_response` has no caller in `run`). -/
def stepTurn (major : String) (turn : Nat) (inp : TurnInput) (st : SessState) :
    SessState × LoopCtl :=
  if inp.user_text = "" then
    if turn < 2 then
      ({ st with transcript := st.transcript ++ ["OFFICER: " ++ clarification] },
        LoopCtl.cont)
    else (st, LoopCtl.brk noAnswerDecision)
  else
    let st1 := { st with transcript := st.transcript ++ ["APPLICANT: " ++ inp.user_text] }
    let analysis := analyzeAnswer inp.user_text
    let st2 :=
      if !st1.istate.darwin_check_used &&
          (analysis.bio_hint || pyIn "biology" (pyLower major)) then
        { st1 with istate := { st1.istate with darwin_check_used := true } }
      else st1
    if inp.ai_text = "" then
      ({ st2 with transcript := st2.transcript ++ ["OFFICER: " ++ fallbackQuestion] },
        LoopCtl.cont)
    else
      let pr := parseAiWithAp inp.ai_text inp.user_text st2.scorer
      let st3 := { st2 with scorer := pr.2.1 }
      match pr.2.2 with
      | some e => (st3, LoopCtl.err e)
      | none =>
        match pr.1.decision with
        | some d =>
          ({ st3 with transcript :=
              st3.transcript ++ ["OFFICER: Decision: " ++ d.1 ++ ". " ++ d.2] },
            LoopCtl.brk d)
        | none =>
          let st4 :=
            match pr.1.q with
            | some qq =>
              if qq ≠ "" then
                { st3 with transcript := st3.transcript ++ ["OFFICER: " ++ qq] }
              else st3
            | none => st3
          let ist1 := { st4.istate with turn := st4.istate.turn + 1 }
          let ist2 := record ist1 ((pr.1.q).getD "") none
          ({ st4 with istate := ist2 }, LoopCtl.cont)

inductive RunExit where
  | noDecision : RunExit
  | decided : String × String → RunExit
  | raised : String → RunExit
deriving Repr, DecidableEq

/-- The turn loop.  An exhausted input list ends the loop exactly like an
exhausted turn budget (the remaining iterations are not modeled — both paths
leave the loop without a terminal decision). -/
def runLoop (major : String) (maxTurns : Nat) :
    Nat → List TurnInput → SessState → SessState × RunExit
  | _, [], st => (st, RunExit.noDecision)
  | turn, inp :: rest, st =>
    if turn < maxTurns then
      let r := stepTurn major turn inp st
      match r.2 with
      | LoopCtl.cont => runLoop major maxTurns (turn + 1) rest r.1
      | LoopCtl.brk d => (r.1, RunExit.decided d)
      | LoopCtl.err e => (r.1, RunExit.raised e)
    else (st, RunExit.noDecision)

/-- Attributes defined on class `AdministrativeProcessingTracker`
(src/logic/analysis.py): the escalation predicate is the underscore-prefixed
`_should_escalate_to_ap`. -/
def apTrackerAttrs : List String :=
  ["__init__", "analyze_response", "_financial_uncertainty", "_academic_issues",
   "_credibility_concerns", "_should_escalate_to_ap", "get_ap_reason"]

/-- The intended decision logic of `InterviewSession._make_final_decision`
past the escalation test (approval at score 70 with clean flags, otherwise a
DENIED reason assembled from what applies). -/
def finalDecisionBody (scorer : ScoreState) (tracker : APState)
    (final_score : ℤ) : String × String :=
  if shouldEscalateToAp tracker then
    ("ADMINISTRATIVE PROCESSING", "Case requires verification: " ++ getApReason tracker)
  else if 70 ≤ final_score ∧ scorer.fraud_flags = [] ∧ scorer.contradictions = [] then
    ("APPROVED", "Credible non-immigrant intent demonstrated.")
  else
    let reasons :=
      (if scorer.contradictions ≠ [] then ["inconsistent information"] else []) ++
      (if scorer.fraud_flags ≠ [] then ["credibility concerns"] else []) ++
      (if final_score < 70 then ["insufficient ties demonstration"] else [])
    let reason_text :=
      if reasons = [] then "insufficient evidence of non-immigrant intent"
      else String.intercalate "; " reasons
    ("DENIED", reason_text ++ " under INA 214(b).")

/-- `InterviewSession._make_final_decision`.  After computing the score, the
method evaluates `self.ap_tracker.should_escalate_to_ap()`; the tracker class
defines only `_should_escalate_to_ap` (see `apTrackerAttrs`), so the Python
attribute lookup raises `AttributeError` and the rest of the method body is
dead code. -/
def makeFinalDecision (scorer : ScoreState) (tracker : APState) :
    Except String (String × String) :=
  let final_score := score scorer
  if "should_escalate_to_ap" ∈ apTrackerAttrs then
    Except.ok (finalDecisionBody scorer tracker final_score)
  else
    Except.error
      "AttributeError: AdministrativeProcessingTracker object has no attribute should_escalate_to_ap"

/-- `InterviewSession.run` from the top of the turn loop: an in-loop decision
(terminal DECISION line, or the no-answer denial) ends the session with it;
otherwise `_make_final_decision` runs.  An error value is an uncaught Python
exception aborting `run`. -/
def runSession (major : String) (maxTurns : Nat) (inputs : List TurnInput) :
    SessState × Except String (String × String) :=
  let r := runLoop major maxTurns 0 inputs initSess
  match r.2 with
  | RunExit.decided d => (r.1, Except.ok d)
  | RunExit.raised e => (r.1, Except.error e)
  | RunExit.noDecision =>
    match makeFinalDecision r.1.scorer r.1.tracker with
    | Except.ok d =>
      ({ r.1 with transcript :=
          r.1.transcript ++ ["OFFICER: Decision: " ++ d.1 ++ ". " ++ d.2] },
        Except.ok d)
    | Except.error e => (r.1, Except.error e)

/-! ## Rounding lemmas -/

lemma floor_le_pythonRound (q : ℚ) : ⌊q⌋ ≤ pythonRound q := by
  unfold pythonRound
  dsimp only
  split_ifs <;> omega

lemma pythonRound_le_ceil (q : ℚ) : pythonRound q ≤ ⌈q⌉ := by
  unfold pythonRound
  dsimp only
  split_ifs with h1 h2 h3
  · exact Int.floor_le_ceil q
  · have hlt : (⌊q⌋ : ℚ) < q := by linarith
    have := Int.lt_ceil.mpr hlt
    omega
  · exact Int.floor_le_ceil q
  · push_neg at h1 h2
    have hlt : (⌊q⌋ : ℚ) < q := by linarith
    have := Int.lt_ceil.mpr hlt
    omega

lemma pythonRound_zero : pythonRound 0 = 0 := by
  unfold pythonRound
  norm_num

lemma pythonRound_hundred : pythonRound 100 = 100 := by
  unfold pythonRound
  norm_num

/-- Rounding then clamping to the integers 0..100 (what `score` computes)
agrees with clamping to [0, 100] then rounding (what the spec describes). -/
lemma roundClamp (x : ℚ) :
    max 0 (min 100 (pythonRound x)) = pythonRound (max 0 (min 100 x)) := by
  rcases lt_or_le x 0 with hx | hx
  · have hc : ⌈x⌉ ≤ 0 := Int.ceil_le.mpr (by exact_mod_cast hx.le)
    have hr : pythonRound x ≤ 0 := le_trans (pythonRound_le_ceil x) hc
    rw [min_eq_right (by linarith : x ≤ (100:ℚ)), max_eq_left hx.le, pythonRound_zero,
      min_eq_right (by omega : pythonRound x ≤ (100:ℤ))]
    omega
  · rcases le_or_lt x 100 with hx2 | hx2
    · have h1 : (0:ℤ) ≤ ⌊x⌋ := Int.floor_nonneg.mpr hx
      have h2 : ⌈x⌉ ≤ 100 := Int.ceil_le.mpr (by exact_mod_cast hx2)
      have h3 := floor_le_pythonRound x
      have h4 := pythonRound_le_ceil x
      rw [min_eq_right hx2, max_eq_right hx,
        min_eq_right (by omega : pythonRound x ≤ (100:ℤ))]
      exact max_eq_right (by omega)
    · have h1 : (100:ℤ) ≤ ⌊x⌋ := Int.le_floor.mpr (by exact_mod_cast hx2.le)
      have h3 := floor_le_pythonRound x
      rw [min_eq_left hx2.le, max_eq_right (by norm_num : (0:ℚ) ≤ 100), pythonRound_hundred,
        min_eq_left (by omega : (100:ℤ) ≤ pythonRound x)]
      norm_num

/-! ## Claim C2 -/

/-- A scorer state with all four evidence categories covered; it is the state
a fresh scorer reaches after the four matched updates
`("ties", 3, "my family home")`, `("funds", 3, "father bank savings")`,
`("academics", 3, "gpa research project")`, `("intent", 3, "return career plan")`
(each text has 3 words, giving quality 3/4 and full weighted points). -/
def cexC2 : ScoreState :=
  { points := 15
    max_possible := 15
    evidence_ties := ["my family home"]
    evidence_funds := ["father bank savings"]
    evidence_academics := ["gpa research project"]
    evidence_intent := ["return career plan"]
    categories_scored := ["ties", "funds", "academics", "intent"]
    response_quality := [3/4, 3/4, 3/4, 3/4]
    evasiveness := 0
    contradictions := []
    claims := [("sponsor", "mentioned")]
    fraud_flags := [] }

/-- C2 counterexample: on a state with positive max-possible and every
evidence category covered, `score` returns 92 (final value 91.5, penalty 0)
while the formula of the claim — which also charges 8 for the never-covered
fifth keyword category "purpose" — gives 84 (final value 83.5).  The code
subtracts the scored categories from the four evidence-dict keys only. -/
theorem C2_counterexample : 0 < cexC2.max_possible ∧ score cexC2 ≠ scoreSpecClaim cexC2 := by
  have e1 : uncoveredCount cexC2 = 0 := rfl
  have e2 : (["ties", "funds", "academics", "intent", "purpose"].filter
      (fun c => !cexC2.categories_scored.contains c)).length = 1 := rfl
  have h1 : score cexC2 = 92 := by
    unfold score
    rw [e1, if_neg (by norm_num [cexC2] : ¬ cexC2.max_possible = 0)]
    dsimp only
    have harg : 100 * (cexC2.points / cexC2.max_possible) -
        ((cexC2.evasiveness : ℚ) * 3 + (cexC2.contradictions.length : ℚ) * 8 +
          ((0 : Nat) : ℚ) * 8) +
        (cexC2.response_quality.sum / ((max 1 cexC2.response_quality.length : Nat) : ℚ) - 5) * 2
        = 183 / 2 := by
      norm_num [cexC2]
    rw [harg, pythonRound]
    norm_num
  have h2 : scoreSpecClaim cexC2 = 84 := by
    unfold scoreSpecClaim
    rw [e2, if_neg (by norm_num [cexC2] : ¬ cexC2.max_possible = 0)]
    dsimp only
    have harg : 100 * (cexC2.points / cexC2.max_possible) -
        ((cexC2.evasiveness : ℚ) * 3 + (cexC2.contradictions.length : ℚ) * 8 +
          ((1 : Nat) : ℚ) * 8) +
        (cexC2.response_quality.sum / ((cexC2.response_quality.length : Nat) : ℚ) - 5) * 2
        = 167 / 2 := by
      norm_num [cexC2]
    rw [harg]
    have hclamp : max (0:ℚ) (min 100 (167 / 2)) = 167 / 2 := by norm_num
    rw [hclamp, pythonRound]
    norm_num
  exact ⟨by norm_num [cexC2], by rw [h1, h2]; decide⟩

/-- C2 (amended): for every `ScoreState`, `score` equals the spec formula
with the never-covered penalty taken over the four evidence-dict categories
ties, funds, academics, intent (the claim listed five, including "purpose");
in particular with max-possible positive it is
round(clamp(base - penalty + qualityAdjustment, 0, 100)) under banker
rounding, and it is 0 when max-possible is 0. -/
theorem C2_score_formula : ∀ s : ScoreState, score s = scoreSpecFour s := by
  intro s
  unfold score scoreSpecFour uncoveredCount
  by_cases h : s.max_possible = 0
  · simp [h]
  · rw [if_neg h, if_neg h]
    have hmean : s.response_quality.sum / ((max 1 s.response_quality.length : Nat) : ℚ)
        = s.response_quality.sum / (s.response_quality.length : ℚ) := by
      cases hq : s.response_quality with
      | nil => simp
      | cons a l => simp
    dsimp only
    rw [hmean]
    exact roundClamp _

/-! ## Claim C3 -/

lemma analyzeResponse_threshold (s : APState) (u : String) (a : APAnalysisDict) (t : Nat) :
    (analyzeResponse s u a t).2.ap_threshold = s.ap_threshold := by
  unfold analyzeResponse
  dsimp only
  split_ifs <;> rfl

lemma runAP_threshold : ∀ (calls : List (String × APAnalysisDict × Nat)) (s : APState),
    (runAP calls s).ap_threshold = s.ap_threshold := by
  intro calls
  induction calls with
  | nil => intro s; rfl
  | cons c rest ih =>
    intro s
    rw [runAP, ih, analyzeResponse_threshold]

/-- C3: after any sequence of `analyze_response` calls on a fresh tracker,
`_should_escalate_to_ap` holds exactly when the four trigger counters sum to
at least 2 (the threshold field stays at its initial value 2; the counters
only ever grow through `analyze_response`, which also reports this very
predicate in its `should_escalate_ap` entry). -/
theorem C3_escalation_iff (calls : List (String × APAnalysisDict × Nat)) :
    shouldEscalateToAp (runAP calls initAP) = true ↔ 2 ≤ totalTriggers (runAP calls initAP) := by
  unfold shouldEscalateToAp
  rw [runAP_threshold]
  exact decide_eq_true_iff

/-! ## Claim C1 -/

/-- C1: `_make_final_decision` never produces a decision — it raises
`AttributeError` on every input, because `session.py` line 198 invokes
`self.ap_tracker.should_escalate_to_ap()` while the tracker class defines
only `_should_escalate_to_ap` (see `apTrackerAttrs`).  A session whose turn
loop exits without a terminal decision therefore aborts instead of emitting
an APPROVED / DENIED / ADMINISTRATIVE PROCESSING outcome. -/
theorem C1_make_final_decision_raises (s : ScoreState) (t : APState) :
    makeFinalDecision s t = Except.error
      "AttributeError: AdministrativeProcessingTracker object has no attribute should_escalate_to_ap" := by
  unfold makeFinalDecision
  rw [if_neg (by decide)]

/-! ## Claim C8 -/

/-- Invariant carried through every scorer update: no contradiction has been
logged and every stored claim value is the literal "mentioned". -/
def ClaimsInv (s : ScoreState) : Prop :=
  s.contradictions = [] ∧ ∀ p ∈ s.claims, p.2 = "mentioned"

lemma ClaimsInv_congr {s s2 : ScoreState} (h1 : s2.contradictions = s.contradictions)
    (h2 : s2.claims = s.claims) (h : ClaimsInv s) : ClaimsInv s2 := by
  refine ⟨h1.trans h.1, ?_⟩
  intro p hp
  rw [h2] at hp
  exact h.2 p hp

lemma assocLookup_mem {l : List (String × String)} {k v : String}
    (h : assocLookup l k = some v) : (k, v) ∈ l := by
  induction l with
  | nil => simp [assocLookup] at h
  | cons p rest ih =>
    rw [assocLookup] at h
    by_cases hp : p.1 = k
    · rw [if_pos hp] at h
      injection h with h2
      rcases p with ⟨a, b⟩
      dsimp at hp h2
      subst hp
      subst h2
      exact List.mem_cons_self _ _
    · rw [if_neg hp] at h
      exact List.mem_cons_of_mem _ (ih h)

lemma assocSet_mem {l : List (String × String)} {k v : String} {p : String × String}
    (h : p ∈ assocSet l k v) : p ∈ l ∨ p = (k, v) := by
  unfold assocSet at h
  by_cases hc : l.any (fun q => q.1 = k)
  · rw [if_pos hc] at h
    obtain ⟨q, hq, hqe⟩ := List.mem_map.mp h
    by_cases hqk : q.1 = k
    · right
      rw [if_pos hqk] at hqe
      exact hqe.symm
    · left
      rw [if_neg hqk] at hqe
      exact hqe ▸ hq
  · rw [if_neg hc] at h
    rcases List.mem_append.mp h with h1 | h1
    · exact Or.inl h1
    · right
      simpa using h1

lemma setClaim_inv {s : ScoreState} (key : String) (h : ClaimsInv s) :
    ClaimsInv (setClaim s key "mentioned") := by
  obtain ⟨hc, hv⟩ := h
  unfold setClaim
  cases hl : assocLookup s.claims key with
  | none =>
    dsimp only
    refine ⟨hc, ?_⟩
    intro p hp
    rcases assocSet_mem hp with h1 | h1
    · exact hv p h1
    · rw [h1]
  | some prev =>
    have hprev : prev = "mentioned" := hv _ (assocLookup_mem hl)
    dsimp only
    rw [if_neg (by simp [hprev])]
    refine ⟨hc, ?_⟩
    intro p hp
    rcases assocSet_mem hp with h1 | h1
    · exact hv p h1
    · rw [h1]

lemma trackClaims_inv {s : ScoreState} (t : String) (h : ClaimsInv s) :
    ClaimsInv (trackClaims s t) := by
  unfold trackClaims
  dsimp only
  split_ifs <;>
    first
      | exact setClaim_inv _ (setClaim_inv _ (setClaim_inv _ h))
      | exact setClaim_inv _ (setClaim_inv _ h)
      | exact setClaim_inv _ h
      | exact h

lemma updateTail_inv {s : ScoreState} (t : String) (h : ClaimsInv s) :
    ClaimsInv (updateTail s t) := by
  unfold updateTail
  dsimp only
  split_ifs <;>
    exact ClaimsInv_congr rfl rfl (trackClaims_inv t (ClaimsInv_congr rfl rfl h))

lemma evidenceAppend_inv {s s2 : ScoreState} {cat text : String}
    (he : evidenceAppend s cat text = some s2) (h : ClaimsInv s) : ClaimsInv s2 := by
  unfold evidenceAppend at he
  split_ifs at he <;> exact (Option.some_inj.mp he) ▸ ClaimsInv_congr rfl rfl h

lemma update_inv {s : ScoreState} (cat : String) (pts : ℤ) (text : String)
    (h : ClaimsInv s) : ClaimsInv (update s cat pts text).1 := by
  unfold update
  dsimp only
  split_ifs with h0 h1
  · exact h
  · cases he : evidenceAppend { s with
        max_possible := s.max_possible + 3 * weight cat,
        points := s.points + ((max 0 (min 3 pts) : ℤ) : ℚ) * weight cat } cat text with
    | none =>
      simp only [he]
      exact ClaimsInv_congr rfl rfl h
    | some s3 =>
      simp only [he]
      have h3 : ClaimsInv s3 := evidenceAppend_inv he (ClaimsInv_congr rfl rfl h)
      exact updateTail_inv _ (ClaimsInv_congr rfl rfl h3)
  · exact updateTail_inv _ (ClaimsInv_congr rfl rfl h)

lemma runUpdates_inv : ∀ (calls : List (String × ℤ × String)) (s : ScoreState),
    ClaimsInv s → ClaimsInv (runUpdates calls s).1 := by
  intro calls
  induction calls with
  | nil => intro s h; exact h
  | cons c rest ih =>
    intro s h
    rw [runUpdates]
    have hu := update_inv c.1 c.2.1 c.2.2 h
    cases he : (update s c.1 c.2.1 c.2.2).2 with
    | some e => simpa [he] using hu
    | none => simpa [he] using ih _ hu

/-- C8: for every sequence of `update` calls on a fresh scorer — arbitrary
categories, points and answer texts — the contradictions list stays empty:
`_track_claims` only ever stores the literal "mentioned" per claim key, so
the contradiction branch (previous truthy value different from the new one)
can never fire. -/
theorem C8_contradictions_empty (calls : List (String × ℤ × String)) :
    (runUpdates calls initScore).1.contradictions = [] :=
  (runUpdates_inv calls initScore ⟨rfl, by intro p hp; simp [initScore] at hp⟩).1

/-! ## Claim C6 -/

/-- Invariant along a sequence of unmatched updates: no points were ever
granted and every quality entry is the no-credit floor 4. -/
def QInv (s : ScoreState) : Prop :=
  s.points = 0 ∧ ∀ x ∈ s.response_quality, x = 4

lemma setClaim_points (s : ScoreState) (key val : String) :
    (setClaim s key val).points = s.points := by
  unfold setClaim
  cases assocLookup s.claims key
  · rfl
  · dsimp only
    split_ifs <;> rfl

lemma setClaim_quality (s : ScoreState) (key val : String) :
    (setClaim s key val).response_quality = s.response_quality := by
  unfold setClaim
  cases assocLookup s.claims key
  · rfl
  · dsimp only
    split_ifs <;> rfl

lemma trackClaims_points (s : ScoreState) (t : String) :
    (trackClaims s t).points = s.points := by
  unfold trackClaims
  dsimp only
  split_ifs <;> simp [setClaim_points]

lemma trackClaims_quality (s : ScoreState) (t : String) :
    (trackClaims s t).response_quality = s.response_quality := by
  unfold trackClaims
  dsimp only
  split_ifs <;> simp [setClaim_quality]

lemma updateTail_points (s : ScoreState) (t : String) :
    (updateTail s t).points = s.points := by
  unfold updateTail
  dsimp only
  split_ifs <;> simp [trackClaims_points]

lemma updateTail_quality (s : ScoreState) (t : String) :
    (updateTail s t).response_quality = s.response_quality := by
  unfold updateTail
  dsimp only
  split_ifs <;> simp [trackClaims_quality]

lemma update_unmatched {cat : String} {pts : ℤ} {text : String}
    (h : isMatchedCall (cat, pts, text) = false) (s : ScoreState) (hq : QInv s) :
    QInv (update s cat pts text).1 ∧ (update s cat pts text).2 = none := by
  unfold update
  dsimp only
  by_cases h0 : text = ""
  · rw [if_pos h0]
    exact ⟨hq, rfl⟩
  · rw [if_neg h0]
    have hm : matchedLower cat (pyLower text) = false := by
      unfold isMatchedCall at h
      simpa [h0] using h
    rw [if_neg (by simp [hm])]
    refine ⟨⟨?_, ?_⟩, rfl⟩
    · rw [updateTail_points]
      exact hq.1
    · intro x hx
      rw [updateTail_quality] at hx
      dsimp at hx
      rcases List.mem_append.mp hx with h1 | h1
      · exact hq.2 x h1
      · simpa using h1

lemma runUpdates_unmatched : ∀ (calls : List (String × ℤ × String)),
    (∀ c ∈ calls, isMatchedCall c = false) → ∀ (s : ScoreState), QInv s →
    QInv (runUpdates calls s).1 := by
  intro calls
  induction calls with
  | nil => intro _ s hq; exact hq
  | cons c rest ih =>
    intro hall s hq
    rw [runUpdates]
    have hc : isMatchedCall c = false := hall c (List.mem_cons_self _ _)
    have hc3 : isMatchedCall (c.1, c.2.1, c.2.2) = false := by
      rcases c with ⟨a, b, d⟩
      exact hc
    have hu := update_unmatched hc3 s hq
    rw [hu.2]
    exact ih (fun x hx => hall x (List.mem_cons_of_mem _ hx)) _ hu.1

lemma list_sum_const_four {l : List ℚ} (h : ∀ x ∈ l, x = 4) :
    l.sum = 4 * l.length := by
  induction l with
  | nil => simp
  | cons a rest ih =>
    rw [List.sum_cons, h a (List.mem_cons_self _ _),
      ih (fun x hx => h x (List.mem_cons_of_mem _ hx))]
    simp only [List.length_cons]
    push_cast
    ring

/-- On a state satisfying `QInv`, the score is 0: either max-possible is 0
(first branch), or the base is 0, the quality adjustment is negative (mean 4
gives -2, an empty list gives -10) and the penalty is nonnegative, so the
clamp to [0, 100] forces 0. -/
lemma score_zero_of_QInv {s : ScoreState} (hq : QInv s) : score s = 0 := by
  unfold score
  split_ifs with h
  · rfl
  · dsimp only
    have hpen : (0:ℚ) ≤ (s.evasiveness : ℚ) * 3 + (s.contradictions.length : ℚ) * 8 +
        (uncoveredCount s : ℚ) * 8 := by positivity
    have hbase : 100 * (s.points / s.max_possible) = 0 := by
      rw [hq.1]
      simp
    have hadj : s.response_quality.sum / ((max 1 s.response_quality.length : Nat) : ℚ) - 5 ≤ -1 := by
      cases hl : s.response_quality with
      | nil => norm_num
      | cons a rest =>
        have hsum : (a :: rest).sum = 4 * (a :: rest).length :=
          list_sum_const_four (by rw [← hl]; exact hq.2)
        rw [hsum]
        have hlen : (max 1 (a :: rest).length : Nat) = (a :: rest).length := by
          simp
        rw [hlen]
        have hne : ((a :: rest).length : ℚ) ≠ 0 := by
          simp only [List.length_cons]
          exact_mod_cast Nat.succ_ne_zero rest.length
        rw [mul_div_assoc, div_self hne]
        norm_num
    set final := 100 * (s.points / s.max_possible) -
        ((s.evasiveness : ℚ) * 3 + (s.contradictions.length : ℚ) * 8 +
          (uncoveredCount s : ℚ) * 8) +
        (s.response_quality.sum / ((max 1 s.response_quality.length : Nat) : ℚ) - 5) * 2
        with hfinal
    have hf : final ≤ 0 := by
      rw [hfinal, hbase]
      nlinarith
    have hceil : ⌈final⌉ ≤ 0 := Int.ceil_le.mpr (by exact_mod_cast hf)
    have hr : pythonRound final ≤ 0 := le_trans (pythonRound_le_ceil final) hceil
    rw [min_eq_right (by omega : pythonRound final ≤ (100:ℤ))]
    exact max_eq_left hr

/-- C6 (amended): a sequence of update calls in which no call is matched
(empty text, or text without a keyword of the scored category and — for
funds — without a digit) leaves `score()` at 0; but not because max-possible
stays 0: every non-empty unmatched call still adds 3×weight to max-possible,
and the score is 0 because no points were granted, the quality floor 4 makes
the adjustment negative and the result is clamped at 0. -/
theorem C6_unmatched_score_zero (calls : List (String × ℤ × String))
    (h : ∀ c ∈ calls, isMatchedCall c = false) :
    score (runUpdates calls initScore).1 = 0 :=
  score_zero_of_QInv
    (runUpdates_unmatched calls h initScore ⟨rfl, by intro x hx; simp [initScore] at hx⟩)

/-- Witness for C6: the single unmatched call ties/3/"hello" yields score 0. -/
theorem C6_witness : score (runUpdates [("ties", 3, "hello")] initScore).1 = 0 :=
  C6_unmatched_score_zero [("ties", 3, "hello")] (by decide)

/-- C6 counterexample to the claim as stated: one unmatched update
(ties, 3 points, text "hello" — no ties keyword) leaves max-possible at
9/2 = 3 × 1.5, not 0; the claim asserts max-possible stays 0 on unmatched
sequences. -/
theorem C6_counterexample : isMatchedCall ("ties", 3, "hello") = false ∧
    (runUpdates [("ties", 3, "hello")] initScore).1.max_possible ≠ 0 := by
  refine ⟨by decide, ?_⟩
  have h : (runUpdates [("ties", 3, "hello")] initScore).1.max_possible
      = 0 + 3 * (3 / 2 : ℚ) := rfl
  rw [h]
  norm_num

/-! ## Claim C7 -/

/-- The local variable `cat` of `parse_ai_with_ap` after its line loop. -/
def parsedCat (ai : String) : String :=
  ((pySplitLines ai).foldl procLine initLineAcc).cat

/-- The local variable `pts` of `parse_ai_with_ap` after its line loop. -/
def parsedPts (ai : String) : ℤ :=
  ((pySplitLines ai).foldl procLine initLineAcc).pts

/-- The alias map sends "purpose" to "intent" and otherwise returns its
argument, so it never yields "purpose". -/
lemma mapCat_ne_purpose (c : String) : mapCat c ≠ "purpose" := by
  unfold mapCat
  split_ifs with h1 h2 h3 h4 h5
  · decide
  · decide
  · decide
  · decide
  · decide
  · exact h5

lemma procLine_cat_ne_purpose (acc : LineAcc) (line : String)
    (h : acc.cat ≠ "purpose") : (procLine acc line).cat ≠ "purpose" := by
  unfold procLine
  dsimp only
  split_ifs <;> try exact h
  · -- SCORE line: cat is reassigned through mapCat (or kept on a parse error)
    generalize splitColonStr _ = r
    cases r with
    | none => exact h
    | some cp =>
      dsimp only
      generalize pyInt _ = ri
      cases ri with
      | none => exact mapCat_ne_purpose _
      | some n => exact mapCat_ne_purpose _
  · -- DECISION line: cat untouched
    generalize splitColonStr _ = r
    cases r with
    | none => exact h
    | some tr => exact h

lemma foldl_cat_ne_purpose :
    ∀ (lines : List String) (acc : LineAcc), acc.cat ≠ "purpose" →
    (lines.foldl procLine acc).cat ≠ "purpose" := by
  intro lines
  induction lines with
  | nil => intro acc h; exact h
  | cons line rest ih =>
    intro acc h
    exact ih _ (procLine_cat_ne_purpose acc line h)

/-- `update` on one of the four evidence-dict categories never raises. -/
lemma update_key_snd {cat : String}
    (h : cat = "ties" ∨ cat = "funds" ∨ cat = "academics" ∨ cat = "intent")
    (s : ScoreState) (p : ℤ) (t : String) : (update s cat p t).2 = none := by
  rcases h with h | h | h | h <;>
    · subst h
      unfold update
      dsimp only
      split_ifs <;> rfl

/-- `parse_ai_with_ap` never raises: the parsed category is either
unrecognized (no update runs) or one of the four evidence keys, because the
alias map turns "purpose" into "intent" before the membership test. -/
lemma parse_err_none (ai user : String) (s : ScoreState) :
    (parseAiWithAp ai user s).2.2 = none := by
  by_cases hai : ai = ""
  · simp [parseAiWithAp, hai]
  · unfold parseAiWithAp
    rw [if_neg hai]
    dsimp only
    by_cases hc : (["academics", "funds", "ties", "intent", "purpose"].contains
        ((pySplitLines ai).foldl procLine initLineAcc).cat) = true
    · rw [if_pos hc]
      have hnp : ((pySplitLines ai).foldl procLine initLineAcc).cat ≠ "purpose" :=
        foldl_cat_ne_purpose _ initLineAcc (by decide)
      have hmem : ((pySplitLines ai).foldl procLine initLineAcc).cat
          ∈ ["academics", "funds", "ties", "intent", "purpose"] := by
        simpa using hc
      simp only [List.mem_cons, List.not_mem_nil, or_false] at hmem
      rcases hmem with h | h | h | h | h
      · exact update_key_snd (Or.inr (Or.inr (Or.inl h))) _ _ _
      · exact update_key_snd (Or.inr (Or.inl h)) _ _ _
      · exact update_key_snd (Or.inl h) _ _ _
      · exact update_key_snd (Or.inr (Or.inr (Or.inr h))) _ _ _
      · exact absurd h hnp
    · rw [if_neg hc]

/-- The scorer returned by `parse_ai_with_ap`: updated with the parsed
category and points when that category is recognized, untouched otherwise. -/
lemma parse_scorer_eq (ai user : String) (s : ScoreState) (h : ai ≠ "") :
    (parseAiWithAp ai user s).2.1 =
      (if ["academics", "funds", "ties", "intent", "purpose"].contains (parsedCat ai) then
        (update s (parsedCat ai) (parsedPts ai) user).1
      else s) := by
  unfold parseAiWithAp parsedCat parsedPts
  rw [if_neg h]
  dsimp only
  by_cases hc : (["academics", "funds", "ties", "intent", "purpose"].contains
      ((pySplitLines ai).foldl procLine initLineAcc).cat) = true
  · rw [if_pos hc, if_pos hc]
  · rw [if_neg hc, if_neg hc]

/-- C7 counterexample to the claim as stated: on the reply
"DECISION: DENIED:weak ties" with answer "ok then", the session does get the
exact decision (DENIED, "weak ties") with `done` set, but the scorer state is
NOT unchanged — its max-possible moves from 0 to 3 × 1.3 because
`parse_ai_with_ap` still runs `scorer.update("intent", 1, user_text)` before
returning. -/
theorem C7_counterexample :
    (parseAiWithAp "DECISION: DENIED:weak ties" "ok then" initScore).1.decision
        = some ("DENIED", "weak ties") ∧
    (parseAiWithAp "DECISION: DENIED:weak ties" "ok then" initScore).1.done = true ∧
    (parseAiWithAp "DECISION: DENIED:weak ties" "ok then" initScore).2.1.max_possible ≠ 0 := by
  refine ⟨rfl, rfl, ?_⟩
  have h : (parseAiWithAp "DECISION: DENIED:weak ties" "ok then" initScore).2.1.max_possible
      = 0 + 3 * (13 / 10 : ℚ) := rfl
  rw [h]
  norm_num

/-- C7 (amended): for EVERY collaborator reply whose parse yields a terminal
decision `d` (on a turn with a non-empty answer), the session loop breaks
immediately with exactly that decision type and reason, regardless of the
accumulated score — but the scorer update is not bypassed: the final scorer
is `update(parsedCat, parsedPts, answer)` whenever the parsed category (the
default intent/1 when no SCORE line is present) is one of the five
recognized labels, and the scorer stays unchanged only when a SCORE line
carried an unrecognized category. -/
theorem C7_decision_line_terminal (major : String) (turn : Nat) (inp : TurnInput)
    (st : SessState) (d : String × String) (hu : inp.user_text ≠ "")
    (hd : (parseAiWithAp inp.ai_text inp.user_text st.scorer).1.decision = some d) :
    (stepTurn major turn inp st).2 = LoopCtl.brk d ∧
    (stepTurn major turn inp st).1.scorer =
      (if ["academics", "funds", "ties", "intent", "purpose"].contains
          (parsedCat inp.ai_text) then
        (update st.scorer (parsedCat inp.ai_text) (parsedPts inp.ai_text) inp.user_text).1
      else st.scorer) := by
  have hai : inp.ai_text ≠ "" := by
    intro he
    rw [he] at hd
    simp [parseAiWithAp] at hd
  have herr := parse_err_none inp.ai_text inp.user_text st.scorer
  rw [← parse_scorer_eq inp.ai_text inp.user_text st.scorer hai]
  unfold stepTurn
  dsimp only
  rw [if_neg hu, if_neg hai]
  split_ifs with hdw
  all_goals dsimp only
  all_goals rw [herr]
  all_goals dsimp only
  all_goals rw [hd]
  all_goals exact ⟨rfl, rfl⟩

/-- Witness for C7 at a concrete turn: the bare decision reply parses to the
default category intent, which is recognized, so the scorer is updated. -/
theorem C7_witness :
    (stepTurn "" 0 ⟨"ok then", "DECISION: DENIED:weak ties"⟩ initSess).2
        = LoopCtl.brk ("DENIED", "weak ties") ∧
    (stepTurn "" 0 ⟨"ok then", "DECISION: DENIED:weak ties"⟩ initSess).1.scorer =
      (if ["academics", "funds", "ties", "intent", "purpose"].contains
          (parsedCat "DECISION: DENIED:weak ties") then
        (update initSess.scorer (parsedCat "DECISION: DENIED:weak ties")
          (parsedPts "DECISION: DENIED:weak ties") "ok then").1
      else initSess.scorer) :=
  C7_decision_line_terminal "" 0 ⟨"ok then", "DECISION: DENIED:weak ties"⟩ initSess
    ("DENIED", "weak ties") (by decide) rfl

/-! ## Claim C4 -/

/-- C4 (amended): the no-answer handling is gated on the absolute loop turn
index, not on consecutive failures: at turn index 0 or 1 a missing answer
emits the fixed clarification prompt and the loop moves on to the NEXT turn
index (the turn is consumed, not retried); at any turn index ≥ 2 a missing
answer — even the first one of the session — terminates immediately with
DENIED "Unable to provide clear responses during interview.".  Three
consecutive no-answers from the session start therefore do deny on the
third. -/
theorem C4_no_answer_turn_gate (major : String) (maxTurns turn : Nat) (inp : TurnInput)
    (rest : List TurnInput) (st : SessState) (h : inp.user_text = "")
    (hlt : turn < maxTurns) :
    runLoop major maxTurns turn (inp :: rest) st =
      if turn < 2 then
        runLoop major maxTurns (turn + 1) rest
          { st with transcript := st.transcript ++ ["OFFICER: " ++ clarification] }
      else (st, RunExit.decided noAnswerDecision) := by
  rw [runLoop, if_pos hlt]
  unfold stepTurn
  rw [if_pos h]
  by_cases h2 : turn < 2
  · rw [if_pos h2, if_pos h2]
  · rw [if_neg h2, if_neg h2]

/-- Witness for C4 at turn index 2. -/
theorem C4_witness :
    runLoop "" 9 2 [⟨"", ""⟩] initSess = (initSess, RunExit.decided noAnswerDecision) := by
  have h := C4_no_answer_turn_gate "" 9 2 ⟨"", ""⟩ [] initSess rfl (by decide)
  simpa using h

/-- C4 counterexample to the claim as stated: with answers on turns 0 and 1
and the FIRST no-answer on turn 2, the session terminates at once with the
DENIED no-answer decision and no clarification prompt is ever emitted — the
claim required two clarification retries and termination only on a third
consecutive failure. -/
theorem C4_counterexample :
    (runSession "" 9 [⟨"hello there", "QUESTION: And why?"⟩,
        ⟨"hello there", "QUESTION: What else?"⟩, ⟨"", ""⟩]).2
      = Except.ok noAnswerDecision ∧
    ("OFFICER: " ++ clarification) ∉ (runSession "" 9 [⟨"hello there", "QUESTION: And why?"⟩,
        ⟨"hello there", "QUESTION: What else?"⟩, ⟨"", ""⟩]).1.transcript := by
  exact ⟨rfl, by decide⟩

/-! ## Claim C5 -/

lemma stepTurn_tracker (major : String) (turn : Nat) (inp : TurnInput) (st : SessState) :
    (stepTurn major turn inp st).1.tracker = st.tracker := by
  unfold stepTurn
  dsimp only
  split_ifs <;> try rfl
  all_goals
    generalize parseAiWithAp _ _ _ = pr
  all_goals
    obtain ⟨out, s2, err⟩ := pr
  all_goals
    rcases err with _ | e
  all_goals dsimp only
  all_goals try rfl
  all_goals
    rcases hd : out.decision with _ | d
  all_goals simp only [hd]
  all_goals try rfl
  all_goals
    rcases hq : out.q with _ | qq
  all_goals simp only [hq]
  all_goals try rfl
  all_goals split_ifs <;> rfl

lemma runLoop_tracker (major : String) (maxTurns : Nat) :
    ∀ (inputs : List TurnInput) (turn : Nat) (st : SessState),
    (runLoop major maxTurns turn inputs st).1.tracker = st.tracker := by
  intro inputs
  induction inputs with
  | nil => intro turn st; rfl
  | cons inp rest ih =>
    intro turn st
    rw [runLoop]
    split_ifs with h
    · have hst := stepTurn_tracker major turn inp st
      cases hctl : (stepTurn major turn inp st).2
      · dsimp only
        rw [hctl]
        dsimp only
        rw [ih, hst]
      · dsimp only
        rw [hctl]
        exact hst
      · dsimp only
        rw [hctl]
        exact hst
    · rfl

lemma runSession_tracker (major : String) (maxTurns : Nat) (inputs : List TurnInput) :
    (runSession major maxTurns inputs).1.tracker = initAP := by
  unfold runSession
  dsimp only
  have hr := runLoop_tracker major maxTurns inputs 0 initSess
  cases hex : (runLoop major maxTurns 0 inputs initSess).2
  · dsimp only
    cases hm : makeFinalDecision (runLoop major maxTurns 0 inputs initSess).1.scorer
        (runLoop major maxTurns 0 inputs initSess).1.tracker
    · dsimp only
      exact hr
    · dsimp only
      exact hr
  · dsimp only
    exact hr
  · dsimp only
    exact hr

/-- C5 counterexample (negation of the claim): there is no session — no
DS-160 major, turn budget or input sequence — whose reachable final state
has a nonzero trigger-counter sum; `run` never calls
`analyze_response`, so the escalation counters cannot increase.  Since every
state reached after any number of loop iterations is the final state of the
correspondingly truncated input list, this covers every reachable session
state. -/
theorem C5_counterexample : ¬ ∃ (major : String) (maxTurns : Nat) (inputs : List TurnInput),
    totalTriggers (runSession major maxTurns inputs).1.tracker ≠ 0 := by
  rintro ⟨major, maxTurns, inputs, h⟩
  exact h (by rw [runSession_tracker]; rfl)

/-- C5 (amended): the controller never feeds anything into the
EscalationTracker — `analyze_response` has no call site in `run` — so in
every reachable session state all four trigger counters are exactly 0. -/
theorem C5_tracker_never_fed (major : String) (maxTurns : Nat) (inputs : List TurnInput) :
    (runSession major maxTurns inputs).1.tracker.financial_triggers = 0 ∧
    (runSession major maxTurns inputs).1.tracker.academic_triggers = 0 ∧
    (runSession major maxTurns inputs).1.tracker.consistency_triggers = 0 ∧
    (runSession major maxTurns inputs).1.tracker.credibility_triggers = 0 := by
  rw [runSession_tracker]
  exact ⟨rfl, rfl, rfl, rfl⟩

/-! ## Claim C9 -/

lemma splitRunsAux_mem {p : Char → Bool} :
    ∀ (l cur t : List Char), t ∈ splitRunsAux p cur l →
    (∀ c ∈ cur, p c = true) → ∀ c ∈ t, p c = true := by
  intro l
  induction l with
  | nil =>
    intro cur t ht hcur
    unfold splitRunsAux at ht
    split_ifs at ht with h
    · simp at ht
    · simp at ht
      subst ht
      intro c hc
      exact hcur c (List.mem_reverse.mp hc)
  | cons a rest ih =>
    intro cur t ht hcur
    unfold splitRunsAux at ht
    split_ifs at ht with h1 h2
    · refine ih (a :: cur) t ht ?_
      intro c hc
      rcases List.mem_cons.mp hc with h3 | h3
      · rw [h3]; exact h1
      · exact hcur c h3
    · exact ih [] t ht (by intro c hc; simp at hc)
    · rcases List.mem_cons.mp ht with h3 | h3
      · subst h3
        intro c hc
        exact hcur c (List.mem_reverse.mp hc)
      · exact ih [] t h3 (by intro c hc; simp at hc)

/-- Every token produced by the `[a-z0-9]+` tokenizer consists of lowercase
alphanumeric characters only — in particular no token contains a space, so a
multi-word phrase can never be a member of the token set. -/
lemma token_all_tokChar {text w : String} (hw : w ∈ (analyzeAnswer text).tokens) :
    ∀ c ∈ w.data, isTokChar c = true := by
  have h : (analyzeAnswer text).tokens
      = (splitRuns isTokChar (pyLower text).data).map (fun l => (⟨l⟩ : String)) := rfl
  rw [h] at hw
  obtain ⟨t, ht, hte⟩ := List.mem_map.mp hw
  have hall := splitRunsAux_mem (pyLower text).data [] t ht (by intro c hc; simp at hc)
  intro c hc
  rw [← hte] at hc
  exact hall c hc

lemma token_not_contains {w : String} (c0 : Char) (hc0 : c0 ∈ w.data)
    (hnt : isTokChar c0 = false) (text : String) :
    (analyzeAnswer text).tokens.contains w = false := by
  by_contra h
  rw [Bool.not_eq_false] at h
  have hmem : w ∈ (analyzeAnswer text).tokens := by simpa using h
  have := token_all_tokChar hmem c0 hc0
  rw [hnt] at this
  exact Bool.false_ne_true this

/-- Follows the words of claim C9: vague iff token count < 4 or an
uncertainty phrase occurs as a substring of the lowercased text. -/
def vagueSpec (text : String) : Bool :=
  decide ((analyzeAnswer text).length < 4) || UNCERTAINTY.any fun w => pyIn w (pyLower text)

/-- C9 counterexample to the claim as stated: "i am not sure about this plan
honestly" has 8 tokens and contains the uncertainty phrase "not sure" as a
substring, so the claim's predicate is true — but the code's vague flag is
false, because the flag tests membership of each phrase in the token SET and
"not sure" can never equal a single token. -/
theorem C9_counterexample :
    (analyzeAnswer "i am not sure about this plan honestly").vague = false ∧
    vagueSpec "i am not sure about this plan honestly" = true := ⟨by decide, by decide⟩

/-- C9 (amended): the vague flag is true iff the token count is < 4 OR one of
the single-word uncertainty phrases "maybe", "probably", "perhaps" occurs as
a token; the multi-word phrases of the list ("not sure", "i think",
"i guess", "don't know") are compared against single tokens and can never
match. -/
theorem C9_vague_token_set (text : String) :
    (analyzeAnswer text).vague =
      (decide ((analyzeAnswer text).length < 4) ||
        (analyzeAnswer text).tokens.contains "maybe" ||
        (analyzeAnswer text).tokens.contains "probably" ||
        (analyzeAnswer text).tokens.contains "perhaps") := by
  have h1 := token_not_contains ' ' (by decide) (by decide) text (w := "not sure")
  have h2 := token_not_contains ' ' (by decide) (by decide) text (w := "i think")
  have h3 := token_not_contains ' ' (by decide) (by decide) text (w := "i guess")
  have h4 := token_not_contains ' ' (by decide) (by decide) text (w := "don\x27t know")
  have hv : (analyzeAnswer text).vague = (decide ((analyzeAnswer text).length < 4) ||
      UNCERTAINTY.any fun w => (analyzeAnswer text).tokens.contains w) := rfl
  rw [hv]
  simp only [UNCERTAINTY, List.any_cons, List.any_nil, h1, h2, h3, h4,
    Bool.or_false, Bool.false_or, Bool.or_assoc]

/-! ## Claim C10 -/

lemma splitRunsAux_ne_nil_of_cur {p : Char → Bool} :
    ∀ (l cur : List Char), cur ≠ [] → splitRunsAux p cur l ≠ [] := by
  intro l
  induction l with
  | nil =>
    intro cur hc
    unfold splitRunsAux
    rw [if_neg hc]
    simp
  | cons a rest ih =>
    intro cur hc
    unfold splitRunsAux
    by_cases h1 : p a
    · rw [if_pos h1]
      exact ih (a :: cur) (by simp)
    · rw [if_neg h1, if_neg hc]
      simp

lemma splitRunsAux_ne_nil {p : Char → Bool} :
    ∀ (l cur : List Char), (∃ c ∈ l, p c = true) → splitRunsAux p cur l ≠ [] := by
  intro l
  induction l with
  | nil =>
    intro cur h
    obtain ⟨c, hc, _⟩ := h
    simp at hc
  | cons a rest ih =>
    intro cur h
    unfold splitRunsAux
    by_cases h1 : p a
    · rw [if_pos h1]
      exact splitRunsAux_ne_nil_of_cur rest (a :: cur) (by simp)
    · rw [if_neg h1]
      have hrest : ∃ c ∈ rest, p c = true := by
        obtain ⟨c, hc, hpc⟩ := h
        rcases List.mem_cons.mp hc with h3 | h3
        · subst h3
          exact absurd hpc (by simpa using h1)
        · exact ⟨c, h3, hpc⟩
      by_cases h2 : cur = []
      · rw [if_pos h2]
        exact ih [] hrest
      · rw [if_neg h2]
        simp

lemma splitRunsAux_mem_ne_nil {p : Char → Bool} :
    ∀ (l cur t : List Char), t ∈ splitRunsAux p cur l → t ≠ [] := by
  intro l
  induction l with
  | nil =>
    intro cur t ht
    unfold splitRunsAux at ht
    split_ifs at ht with h
    · simp at ht
    · simp at ht
      subst ht
      simpa using h
  | cons a rest ih =>
    intro cur t ht
    unfold splitRunsAux at ht
    split_ifs at ht with h1 h2
    · exact ih (a :: cur) t ht
    · exact ih [] t ht
    · rcases List.mem_cons.mp ht with h3 | h3
      · subst h3
        simpa using h2
      · exact ih [] t h3

lemma tokChar_not_ws {c : Char} (h : isTokChar c = true) : isWS c = false := by
  cases hws : isWS c
  · rfl
  · exfalso
    unfold isWS at hws
    simp only [Bool.or_eq_true, decide_eq_true_iff] at hws
    rcases hws with ((((h1 | h1) | h1) | h1) | h1) | h1 <;>
      · subst h1
        simp [isTokChar] at h

lemma joinSpace_data_head (w : String) (rest : List String) :
    ∃ tail : List Char, (joinSpace (w :: rest)).data = w.data ++ tail := by
  cases rest with
  | nil => exact ⟨[], by simp [joinSpace]⟩
  | cons r rs =>
    refine ⟨(" " ++ joinSpace (r :: rs)).data, ?_⟩
    show (w ++ " " ++ joinSpace (r :: rs)).data = _
    rw [String.data_append, String.data_append, String.data_append, List.append_assoc]

/-- A question with at least one alphanumeric character (after lowering)
normalizes to a string with at least one word: the character survives the
replacement step, so the run splitter emits a nonempty whitespace-free token
whose characters appear in the space-joined result. -/
lemma pySplitWS_norm_ne_nil {q : String}
    (hq : (pyLower q).data.any isTokChar = true) : pySplitWS (norm q) ≠ [] := by
  obtain ⟨c0, hc0, htok⟩ := List.any_eq_true.mp hq
  have hrepl : c0 ∈ (pyLower q).data.map
      (fun c => if isTokChar c || isWS c then c else ' ') := by
    have he : (fun c => if isTokChar c || isWS c then c else ' ') c0 = c0 := by
      simp [htok]
    rw [← he]
    exact List.mem_map_of_mem _ hc0
  have hruns : splitRuns (fun c => !isWS c)
      ((pyLower q).data.map (fun c => if isTokChar c || isWS c then c else ' ')) ≠ [] := by
    refine splitRunsAux_ne_nil _ [] ⟨c0, hrepl, ?_⟩
    rw [tokChar_not_ws htok]
    rfl
  unfold norm
  dsimp only
  cases hws : (splitRuns (fun c => !isWS c)
      ((pyLower q).data.map (fun c => if isTokChar c || isWS c then c else ' '))) with
  | nil => exact absurd hws hruns
  | cons t ts =>
    have htmem : t ∈ splitRuns (fun c => !isWS c)
        ((pyLower q).data.map (fun c => if isTokChar c || isWS c then c else ' ')) := by
      rw [hws]
      exact List.mem_cons_self _ _
    have htne : t ≠ [] := splitRunsAux_mem_ne_nil _ [] t htmem
    have htall : ∀ c ∈ t, (!isWS c) = true :=
      splitRunsAux_mem _ [] t htmem (by intro c hc; simp at hc)
    rw [List.map_cons]
    obtain ⟨c1, t2, rfl⟩ := List.exists_cons_of_ne_nil htne
    have hc1 : (!isWS c1) = true := htall c1 (List.mem_cons_self _ _)
    obtain ⟨tail, htail⟩ :=
      joinSpace_data_head (⟨c1 :: t2⟩ : String) (ts.map fun l => (⟨l⟩ : String))
    have hc1mem :
        c1 ∈ (joinSpace ((⟨c1 :: t2⟩ : String) :: ts.map fun l => (⟨l⟩ : String))).data := by
      rw [htail]
      exact List.mem_append.mpr (Or.inl (List.mem_cons_self _ _))
    unfold pySplitWS
    intro hmap
    rw [List.map_eq_nil] at hmap
    exact splitRunsAux_ne_nil _ [] ⟨c1, hc1mem, hc1⟩ hmap

/-- Jaccard similarity of a normalized question with itself is exactly 1 as
soon as its word set is nonempty. -/
lemma jaccard_self {n : String} (h : pySplitWS n ≠ []) : jaccard n n = 1 := by
  unfold jaccard
  dsimp only
  have hne : (pySplitWS n).toFinset ≠ ∅ := by
    rw [Ne, List.toFinset_eq_empty_iff]
    exact h
  rw [if_neg (by simp [hne])]
  rw [Finset.inter_self, Finset.union_self]
  rw [div_self]
  exact_mod_cast Finset.card_ne_zero.mpr (Finset.nonempty_iff_ne_empty.mpr hne)

lemma pushHistory_mem (h : List String) (q : String) : q ∈ pushHistory h q := by
  unfold pushHistory
  dsimp only
  split_ifs with hl
  · have hle : (h ++ [q]).length - 25 ≤ h.length := by
      simp [List.length_append]
    rw [List.drop_append_of_le_length hle]
    exact List.mem_append.mpr (Or.inr (List.mem_cons_self _ _))
  · exact List.mem_append.mpr (Or.inr (List.mem_cons_self _ _))

/-- C10 (amended): `tooSimilar` is reflexive for every question containing at
least one alphanumeric character: after recording such a question (from any
tracker state), `too_similar` on the same text returns true at every
threshold ≤ 1.  Questions without any alphanumeric character normalize to
the empty string, whose self-similarity is defined as 0, so for them
reflexivity fails at positive thresholds (see the counterexample). -/
theorem C10_too_similar_reflexive (st : IState) (q : String) (θ : ℚ)
    (hq : (pyLower q).data.any isTokChar = true) (hθ : θ ≤ 1) :
    tooSimilar (record st q none) q θ = true := by
  have hqne : q ≠ "" := by
    intro he
    subst he
    simp [pyLower] at hq
  have hsplit := pySplitWS_norm_ne_nil hq
  unfold record
  dsimp only
  rw [if_pos hqne]
  unfold tooSimilar
  dsimp only
  rw [List.any_eq_true]
  refine ⟨norm q, pushHistory_mem _ _, ?_⟩
  rw [jaccard_self hsplit]
  exact decide_eq_true_iff.mpr hθ

/-- Witness for C10 on a concrete question and threshold 1. -/
theorem C10_witness :
    ((pyLower "What is your plan").data.any isTokChar = true) ∧ ((1:ℚ) ≤ 1) ∧
    tooSimilar (record initIState "What is your plan" none) "What is your plan" 1 = true :=
  ⟨by decide, le_refl 1,
    C10_too_similar_reflexive initIState "What is your plan" 1 (by decide) (le_refl 1)⟩

/-- C10 counterexample to the claim as stated: the question "???" (nonempty,
so it is recorded) normalizes to the empty string; `_jaccard` returns 0 for
empty word sets, so `too_similar` with the same text at threshold 1.0 is
false, although the claim asserts reflexivity for every question string at
every threshold ≤ 1.0. -/
theorem C10_counterexample :
    tooSimilar (record initIState "???" none) "???" 1 = false := by decide

end Mockdeu
